import Mathlib

/-!
Shallow embedding of the reminder-session state machine of
`src/ReminderScreen.tsx` (the Session Controller of the spec), together with a
spec-modelled Reward Ledger (`utils/database`, not part of the sources).
React state updates are modelled as functional record updates; awaited
asynchronous ledger calls are modelled by threading an explicit ledger state;
calls issued to the outside world are recorded as an `Effect` trace.
-/

namespace Revisery

/-- One multiple-choice task of a reminder (field-for-field from the
`ReminderResponse` task payload consumed by `ReminderScreen.tsx`). -/
structure Task where
  difficulty : String
  question : String
  options : List String
  correctAnswer : Nat
  explanation : String
  deriving DecidableEq, Repr

/-- Theory payload of a reminder. -/
structure TheoryPayload where
  content : String
  keyPoints : List String
  deriving DecidableEq, Repr

/-- Per-subject generated reminder: theory plus an ordered task list. -/
structure ReminderResponse where
  theory : TheoryPayload
  tasks : List Task
  deriving DecidableEq, Repr

/-- A lesson record, as consumed by `ReminderScreen.tsx` (`utils/database`
`Lesson`): only the `subject` field matters for subject resolution. -/
structure Lesson where
  subject : String
  topic : String
  homework : String
  date : String
  deriving DecidableEq, Repr

/-- The `currentPage` state variable of `ReminderScreen.tsx` (line 28). -/
inductive Page where
  | theory1
  | theory2
  | task
  | explanation
  | completion
  deriving DecidableEq, Repr

/-- Association-list read, modelling JS `Map.prototype.get`. -/
def assocGet {α : Type} (m : List (String × α)) (k : String) : Option α :=
  match m with
  | [] => none
  | (k1, v) :: rest => if k1 = k then some v else assocGet rest k

/-- Association-list write, modelling JS `Map.prototype.set` (replaces the
binding if present, appends otherwise). -/
def assocSet {α : Type} (m : List (String × α)) (k : String) (v : α) :
    List (String × α) :=
  match m with
  | [] => [(k, v)]
  | (k1, v1) :: rest =>
      if k1 = k then (k, v) :: rest else (k1, v1) :: assocSet rest k v

/-- Counter read with default 0, modelling `map.get(k) || 0`. -/
def mapGet (m : List (String × Nat)) (k : String) : Nat :=
  (assocGet m k).getD 0

/-- Set insertion, modelling `new Set(prev).add(k)` (idempotent). -/
def setAdd (s : List String) (k : String) : List String :=
  if k ∈ s then s else k :: s

/-- JS string truthiness applied to an optional string: `undefined` and the
empty string are falsy (used for the `username` prop and `currentSubject`). -/
def truthyStr : Option String → Option String
  | none => none
  | some s => if s = "" then none else some s

/-- First-occurrence deduplication, modelling `Array.from(new Set(xs))`
(JS `Set` iterates in insertion order). -/
def dedupFirstAux : List String → List String → List String
  | [], _ => []
  | x :: xs, seen =>
      if x ∈ seen then dedupFirstAux xs seen
      else x :: dedupFirstAux xs (x :: seen)

/-- `Array.from(new Set(xs))` in first-occurrence order. -/
def dedupFirst (xs : List String) : List String :=
  dedupFirstAux xs []

/-- `allUniqueSubjects` (ReminderScreen.tsx lines 43-46):
`Array.from(new Set(lessons.map(l => l.subject))).filter(s => s)` —
deduplicated lesson subjects in first-occurrence order, empty strings
(falsy) removed. -/
def allUniqueSubjects (lessons : List Lesson) : List String :=
  (dedupFirst (lessons.map (fun l => l.subject))).filter (fun s => s != "")

/-- `subjectsToDisplay` (ReminderScreen.tsx lines 48-53): the caller-selected
subjects filtered to the unique lesson subjects when non-empty, otherwise the
unique lesson subjects. -/
def subjectsToDisplay (selectedSubjects : List String) (lessons : List Lesson) :
    List String :=
  if selectedSubjects.length > 0 then
    selectedSubjects.filter (fun s => decide (s ∈ allUniqueSubjects lessons))
  else allUniqueSubjects lessons

/-- The component state of `ReminderScreen.tsx` (its `useState` variables,
lines 25-40) together with the props the handlers read. -/
structure Config where
  selectedSubjects : List String
  lessons : List Lesson
  username : Option String
  currentSubjectIndex : Nat
  currentTaskIndex : Nat
  selectedAnswer : Option Nat
  currentPage : Page
  reminders : List (String × ReminderResponse)
  isLoading : Bool
  error : Option String
  totalCoinsEarned : Nat
  correctAnswers : Nat
  totalQuestions : Nat
  subjectCorrectAnswers : List (String × Nat)
  subjectTotalQuestions : List (String × Nat)
  awardedQuestions : List String
  awardedBonuses : List String
  canClaimCompletionBonus : Bool
  hasClaimedBonus : Bool
  deriving DecidableEq, Repr

/-- `subjectsToDisplay` evaluated on the component's props. -/
def Config.subjects (c : Config) : List String :=
  subjectsToDisplay c.selectedSubjects c.lessons

/-- `currentSubject = subjectsToDisplay[currentSubjectIndex]` (line 55). -/
def Config.currentSubject (c : Config) : Option String :=
  c.subjects[c.currentSubjectIndex]?

/-- `currentReminder = currentSubject ? reminders.get(currentSubject) :
undefined` (line 56). -/
def Config.currentReminder (c : Config) : Option ReminderResponse :=
  match c.currentSubject with
  | none => none
  | some s => assocGet c.reminders s

/-- `currentTask = currentReminder?.tasks[currentTaskIndex]` (line 57). -/
def Config.currentTask (c : Config) : Option Task :=
  match c.currentReminder with
  | none => none
  | some r => r.tasks[c.currentTaskIndex]?

/-- The fresh component state of a new session: the initial `useState` values
together with the reset performed by the mount effect (lines 59-71). -/
def startSession (selectedSubjects : List String) (lessons : List Lesson)
    (username : Option String) : Config :=
  { selectedSubjects := selectedSubjects
    lessons := lessons
    username := username
    currentSubjectIndex := 0
    currentTaskIndex := 0
    selectedAnswer := none
    currentPage := Page.theory1
    reminders := []
    isLoading := true
    error := none
    totalCoinsEarned := 0
    correctAnswers := 0
    totalQuestions := 0
    subjectCorrectAnswers := []
    subjectTotalQuestions := []
    awardedQuestions := []
    awardedBonuses := []
    canClaimCompletionBonus := false
    hasClaimedBonus := false }

/-- Modelled from the spec: the Reward Ledger state (`utils/database`, not in
the sources). Coin balances per user, the set of subjects marked complete per
user, and the days on which the completion bonus was claimed per user. -/
structure Ledger where
  coins : List (String × Nat)
  completedSubjects : List (String × String)
  claimedDays : List (String × Nat)
  deriving DecidableEq, Repr

/-- Modelled from the spec: `addCoins(user, delta) → new total`, an atomic
coin increment returning the new balance. -/
def Ledger.addCoins (led : Ledger) (user : String) (delta : Nat) :
    Ledger × Nat :=
  let newTotal := (assocGet led.coins user).getD 0 + delta
  ({ led with coins := assocSet led.coins user newTotal }, newTotal)

/-- Modelled from the spec: `markSubjectCompleted(user, subject)`, idempotent
completion marking. -/
def Ledger.markSubjectCompleted (led : Ledger) (user subj : String) : Ledger :=
  { led with completedSubjects :=
      if (user, subj) ∈ led.completedSubjects then led.completedSubjects
      else (user, subj) :: led.completedSubjects }

/-- Modelled from the spec: `areAllDailyTasksCompleted(user, expectedCount)` —
true when the number of subjects marked complete for the user equals the
expected count. -/
def Ledger.areAllDailyTasksCompleted (led : Ledger) (user : String)
    (expected : Nat) : Bool :=
  (led.completedSubjects.filter (fun p => p.1 == user)).length == expected

/-- Modelled from the spec: `hasClaimedCompletionBonusToday(user)`. -/
def Ledger.hasClaimedCompletionBonusToday (led : Ledger) (user : String)
    (today : Nat) : Bool :=
  decide ((user, today) ∈ led.claimedDays)

/-- Result of the ledger's `claimCompletionBonus` call. -/
inductive ClaimResult where
  | success (coins : Nat)
  | failure
  deriving DecidableEq, Repr

/-- Modelled from the spec: `claimCompletionBonus(user) → {success, newTotal}`,
idempotent/exclusive per calendar day regardless of client-side flags: it
fails without changing the ledger if the user already claimed today,
otherwise adds 100 coins and marks today claimed. -/
def Ledger.claimCompletionBonus (led : Ledger) (user : String) (today : Nat) :
    Ledger × ClaimResult :=
  if (user, today) ∈ led.claimedDays then (led, ClaimResult.failure)
  else
    let r := led.addCoins user 100
    ({ r.1 with claimedDays := (user, today) :: r.1.claimedDays },
      ClaimResult.success r.2)

/-- Attribution of an `addCoins` call issued by the client. -/
inductive Attr where
  | question (key : String)
  | perfectBonus (subject : String)
  deriving DecidableEq, Repr

/-- Observable calls and callbacks issued by the client handlers. -/
inductive Effect where
  | addCoinsCall (user : String) (amount : Nat) (attr : Attr)
  | coinsUpdated (newTotal : Nat)
  | markCompleted (user subject : String)
  | logWarn
  | logError
  | alertBonusClaimed
  | alertClaimError
  | closed
  deriving DecidableEq, Repr

/-- The question key of `handleAnswerSelect` (line 143):
`` `${currentSubject}-${currentTaskIndex}-${currentTask.question}` ``. -/
def questionKey (subj : String) (idx : Nat) (question : String) : String :=
  subj ++ "-" ++ toString idx ++ "-" ++ question

/-- `awardCoins` (ReminderScreen.tsx lines 106-137). `callFails` says whether
the awaited `addCoins` ledger call rejects; the `catch` branch only logs. The
client coin counter is incremented and the question key recorded before the
ledger call is issued. -/
def awardCoins (c : Config) (led : Ledger) (isCorrect : Bool) (qKey : String)
    (callFails : Bool) : Config × Ledger × List Effect :=
  match truthyStr c.username with
  | none => (c, led, [])
  | some username =>
    if qKey ∈ c.awardedQuestions then (c, led, [Effect.logWarn])
    else
      let coinsToAward := if isCorrect then 10 else 5
      let c1 := { c with
        totalCoinsEarned := c.totalCoinsEarned + coinsToAward
        awardedQuestions := setAdd c.awardedQuestions qKey }
      if callFails then
        (c1, led,
          [Effect.addCoinsCall username coinsToAward (Attr.question qKey),
           Effect.logError])
      else
        let r := led.addCoins username coinsToAward
        (c1, r.1,
          [Effect.addCoinsCall username coinsToAward (Attr.question qKey),
           Effect.coinsUpdated r.2])

/-- `handleAnswerSelect` (ReminderScreen.tsx lines 139-168): guarded by
`selectedAnswer !== null || !currentTask || !currentSubject`; records the
answer, awards coins via `awardCoins`, bumps the global and per-subject
counters (correct counters only when correct), and shows the explanation. -/
def handleAnswerSelect (c : Config) (led : Ledger) (answerIndex : Nat)
    (awardFails : Bool) : Config × Ledger × List Effect :=
  match c.selectedAnswer, c.currentTask, truthyStr c.currentSubject with
  | none, some task, some subj =>
    let qKey := questionKey subj c.currentTaskIndex task.question
    let c1 := { c with selectedAnswer := some answerIndex }
    let isCorrect : Bool := answerIndex == task.correctAnswer
    let ar := awardCoins c1 led isCorrect qKey awardFails
    let c2 := ar.1
    let c3 := if isCorrect then
        { c2 with correctAnswers := c2.correctAnswers + 1 } else c2
    let c4 := { c3 with totalQuestions := c3.totalQuestions + 1 }
    let curCorrect := mapGet c.subjectCorrectAnswers subj
    let curTotal := mapGet c.subjectTotalQuestions subj
    let c5 := if isCorrect then
        { c4 with subjectCorrectAnswers := assocSet c.subjectCorrectAnswers subj (curCorrect + 1) }
      else c4
    let c6 := { c5 with subjectTotalQuestions := assocSet c.subjectTotalQuestions subj (curTotal + 1) }
    ({ c6 with currentPage := Page.explanation }, ar.2.1, ar.2.2)
  | _, _, _ => (c, led, [])

/-- `handleNext` (ReminderScreen.tsx lines 170-230). Awaited ledger calls are
threaded through the spec-modelled `Ledger`; `today` names the current
calendar day for the once-per-day bonus query. -/
def handleNext (c : Config) (led : Ledger) (today : Nat) :
    Config × Ledger × List Effect :=
  match c.currentPage with
  | Page.theory1 => ({ c with currentPage := Page.theory2 }, led, [])
  | Page.theory2 =>
      ({ c with
          currentTaskIndex := 0
          selectedAnswer := none
          currentPage := Page.task }, led, [])
  | Page.explanation =>
    let numTasks : Nat := (c.currentReminder.map (fun r => r.tasks.length)).getD 0
    if (c.currentTaskIndex : Int) < (numTasks : Int) - 1 then
      ({ c with
          currentTaskIndex := c.currentTaskIndex + 1
          selectedAnswer := none
          currentPage := Page.task }, led, [])
    else
      let sc : Config × Ledger × List Effect :=
        match truthyStr c.currentSubject, truthyStr c.username with
        | some subj, some username =>
          let led1 := led.markSubjectCompleted username subj
          let subjectCorrect := mapGet c.subjectCorrectAnswers subj
          let subjectTotal := mapGet c.subjectTotalQuestions subj
          let bonusKey := "perfect-" ++ subj
          if subjectTotal = 3 ∧ subjectCorrect = 3 ∧
              c.currentReminder.map (fun r => r.tasks.length) = some 3 ∧
              ¬ bonusKey ∈ c.awardedBonuses then
            let c1 := { c with awardedBonuses := setAdd c.awardedBonuses bonusKey }
            let ar := led1.addCoins username 20
            let c2 := { c1 with totalCoinsEarned := c1.totalCoinsEarned + 20 }
            (c2, ar.1,
              [Effect.markCompleted username subj,
               Effect.addCoinsCall username 20 (Attr.perfectBonus subj),
               Effect.coinsUpdated ar.2])
          else (c, led1, [Effect.markCompleted username subj])
        | _, _ => (c, led, [])
      let cA := sc.1
      let ledA := sc.2.1
      let effs := sc.2.2
      if (c.currentSubjectIndex : Int) < (c.subjects.length : Int) - 1 then
        ({ cA with
            currentSubjectIndex := c.currentSubjectIndex + 1
            currentTaskIndex := 0
            selectedAnswer := none
            currentPage := Page.theory1 }, ledA, effs)
      else
        let cB :=
          match truthyStr c.username with
          | some username =>
            if c.subjects.length > 0 then
              if ledA.areAllDailyTasksCompleted username c.subjects.length then
                { cA with canClaimCompletionBonus := ! ledA.hasClaimedCompletionBonusToday username today }
              else { cA with canClaimCompletionBonus := false }
            else cA
          | none => cA
        ({ cB with currentPage := Page.completion }, ledA, effs)
  | _ => (c, led, [])

/-- `handleBack` (ReminderScreen.tsx lines 232-252). -/
def handleBack (c : Config) : Config :=
  if c.currentPage = Page.task ∧ c.currentTaskIndex > 0 then
    { c with
        currentTaskIndex := c.currentTaskIndex - 1
        selectedAnswer := none
        currentPage := Page.explanation }
  else if c.currentPage = Page.explanation then
    { c with currentPage := Page.task, selectedAnswer := none }
  else if c.currentPage = Page.theory2 then
    { c with currentPage := Page.theory1 }
  else if c.currentPage = Page.theory1 ∧ c.currentSubjectIndex > 0 then
    let c2 := { c with currentSubjectIndex := c.currentSubjectIndex - 1 }
    match (c.subjects[c.currentSubjectIndex - 1]?).bind
        (fun s => assocGet c.reminders s) with
    | some prev =>
        if prev.tasks.length > 0 then
          { c2 with
              currentTaskIndex := prev.tasks.length - 1
              currentPage := Page.explanation }
        else { c2 with currentPage := Page.theory2 }
    | none => { c2 with currentPage := Page.theory2 }
  else c

/-- Default fetch-failure message (`err.message || '...'`, line 100). -/
def defaultFetchErrorMessage : String :=
  "Failed to generate reminders. Make sure your Google Gemini API key is configured."

/-- `loadReminders` (ReminderScreen.tsx lines 73-104), applied at completion of
the Content Provider fetch: `result` is the fetch outcome (`.error msg` models
a rejection carrying `err.message`). Only `reminders`, `error` and `isLoading`
are touched; the accumulators are not. -/
def loadReminders (c : Config)
    (result : Except String (List (String × ReminderResponse))) : Config :=
  let c0 := { c with isLoading := true, error := none }
  let allUnique := allUniqueSubjects c.lessons
  let subjectsToRemind :=
    if c.selectedSubjects.length > 0 then
      c.selectedSubjects.filter (fun s => decide (s ∈ allUnique))
    else allUnique
  if subjectsToRemind.length = 0 then
    { c0 with
        error := some "No subjects available for reminders"
        isLoading := false }
  else
    match result with
    | Except.ok rs => { c0 with reminders := rs, isLoading := false }
    | Except.error msg =>
        { c0 with
          error := some (if msg = "" then defaultFetchErrorMessage else msg)
          isLoading := false }

/-- The claim-bonus button press handler (ReminderScreen.tsx lines 355-375):
calls the ledger's `claimCompletionBonus`; on success records the claim
locally, adds 100 to the session counter, hides the button and reports the
new total; on failure shows an error alert. -/
def claimBonusPress (c : Config) (led : Ledger) (today : Nat) :
    Config × Ledger × List Effect :=
  match truthyStr c.username with
  | none => (c, led, [])
  | some username =>
    let cr := led.claimCompletionBonus username today
    match cr.2 with
    | ClaimResult.success newCoins =>
        ({ c with
            hasClaimedBonus := true
            totalCoinsEarned := c.totalCoinsEarned + 100
            canClaimCompletionBonus := false }, cr.1,
          [Effect.coinsUpdated newCoins, Effect.alertBonusClaimed])
    | ClaimResult.failure => (c, cr.1, [Effect.alertClaimError])

/-- Answer submission as deliverable through the UI: option buttons are
rendered only on the `task` page with a current task (line 417), one per
option (line 436), and disabled once an answer is selected (line 444). -/
def submitAnswer (c : Config) (led : Ledger) (i : Nat) (awardFails : Bool) :
    Config × Ledger × List Effect :=
  match c.currentPage, c.currentTask with
  | Page.task, some t =>
    if i < t.options.length ∧ c.selectedAnswer = none then
      handleAnswerSelect c led i awardFails
    else (c, led, [])
  | _, _ => (c, led, [])

/-- User-initiated and asynchronous-completion events of a session. -/
inductive Event where
  | fetched (result : Except String (List (String × ReminderResponse)))
  | submit (i : Nat) (awardFails : Bool)
  | next
  | back
  | claim
  | close
  deriving Repr

/-- One step of the session machine: event dispatch as the rendered UI allows
it. While loading, only the fetch completion is deliverable (lines 254-265
render no interactive widget); in the error view (lines 267-283) and the
missing-reminder view (lines 285-297) only the close button exists; the Back
button renders only on `theory2`/`explanation` (line 517); the Next button
renders on every non-`task`, non-`completion` page (lines 515-539); the claim
button renders on `completion` only while the bonus is claimable and
unclaimed (line 352). -/
def step (today : Nat) (s : Config × Ledger) (e : Event) :
    (Config × Ledger) × List Effect :=
  match e with
  | Event.fetched r =>
      if s.1.isLoading then ((loadReminders s.1 r, s.2), []) else (s, [])
  | Event.close => (s, [Effect.closed])
  | e1 =>
    if s.1.isLoading then (s, [])
    else if s.1.error.isSome then (s, [])
    else if s.1.currentReminder.isNone then (s, [])
    else
      match e1 with
      | Event.submit i f =>
          let r := submitAnswer s.1 s.2 i f
          ((r.1, r.2.1), r.2.2)
      | Event.next =>
          let r := handleNext s.1 s.2 today
          ((r.1, r.2.1), r.2.2)
      | Event.back =>
          if s.1.currentPage = Page.theory2 ∨
              s.1.currentPage = Page.explanation then
            ((handleBack s.1, s.2), [])
          else (s, [])
      | Event.claim =>
          if s.1.currentPage = Page.completion ∧
              s.1.canClaimCompletionBonus ∧ ¬ s.1.hasClaimedBonus then
            let r := claimBonusPress s.1 s.2 today
            ((r.1, r.2.1), r.2.2)
          else (s, [])
      | _ => (s, [])

/-- A session trace: fold `step` over an event list, collecting effects. -/
def run (today : Nat) (s : Config × Ledger) : List Event →
    (Config × Ledger) × List Effect
  | [] => (s, [])
  | e :: es =>
    let r1 := step today s e
    let r2 := run today r1.1 es
    (r2.1, r1.2 ++ r2.2)

/-- Does an effect award coins attributed to question key `k`? -/
def isQuestionAward (k : String) : Effect → Bool
  | Effect.addCoinsCall _ _ (Attr.question k1) => k1 == k
  | _ => false

/-- Number of coin awards attributed to question key `k` in a trace. -/
def countQuestionAwards (effs : List Effect) (k : String) : Nat :=
  (effs.filter (isQuestionAward k)).length

/-- Does an effect award the perfect-score bonus of subject `s`? -/
def isBonusAward (s : String) : Effect → Bool
  | Effect.addCoinsCall _ _ (Attr.perfectBonus s1) => s1 == s
  | _ => false

/-- Number of perfect-score bonus awards for subject `s` in a trace. -/
def countBonusAwards (effs : List Effect) (s : String) : Nat :=
  (effs.filter (isBonusAward s)).length

/-! ### Helper lemmas on the container embeddings -/

theorem assocGet_assocSet_self {α : Type} (m : List (String × α)) (k : String)
    (v : α) : assocGet (assocSet m k v) k = some v := by
  induction m with
  | nil => simp [assocSet, assocGet]
  | cons hd tl ih =>
    obtain ⟨k1, v1⟩ := hd
    by_cases h : k1 = k
    · simp [assocSet, assocGet, h]
    · simp [assocSet, assocGet, h, ih]

theorem mapGet_assocSet_self (m : List (String × Nat)) (k : String) (v : Nat) :
    mapGet (assocSet m k v) k = v := by
  simp [mapGet, assocGet_assocSet_self]

theorem mem_setAdd (s : List String) (k x : String) :
    x ∈ setAdd s k ↔ x = k ∨ x ∈ s := by
  unfold setAdd
  by_cases h : k ∈ s
  · simp only [if_pos h]
    constructor
    · exact fun hx => Or.inr hx
    · rintro (rfl | hx)
      · exact h
      · exact hx
  · simp [if_neg h]

theorem self_mem_setAdd (s : List String) (k : String) : k ∈ setAdd s k := by
  rw [mem_setAdd]
  exact Or.inl rfl

theorem mem_setAdd_of_mem (s : List String) (k x : String) (h : x ∈ s) :
    x ∈ setAdd s k := by
  rw [mem_setAdd]
  exact Or.inr h

theorem mem_dedupFirstAux (x : String) :
    ∀ (xs seen : List String),
      x ∈ dedupFirstAux xs seen ↔ x ∈ xs ∧ x ∉ seen := by
  intro xs
  induction xs with
  | nil => intro seen; simp [dedupFirstAux]
  | cons y ys ih =>
    intro seen
    by_cases hy : y ∈ seen
    · simp only [dedupFirstAux, if_pos hy, ih, List.mem_cons]
      constructor
      · rintro ⟨hmem, hnot⟩
        exact ⟨Or.inr hmem, hnot⟩
      · rintro ⟨hmem | hmem, hnot⟩
        · exact absurd hy (hmem ▸ hnot)
        · exact ⟨hmem, hnot⟩
    · simp only [dedupFirstAux, if_neg hy, List.mem_cons, ih]
      by_cases hxy : x = y
      · subst hxy
        simp [hy]
      · simp [hxy]

theorem mem_dedupFirst (x : String) (xs : List String) :
    x ∈ dedupFirst xs ↔ x ∈ xs := by
  simp [dedupFirst, mem_dedupFirstAux]

theorem filter_dedupFirstAux (p : String → Bool) :
    ∀ (xs seen : List String),
      (dedupFirstAux xs seen).filter p =
        dedupFirstAux (xs.filter p) (seen.filter p) := by
  intro xs
  induction xs with
  | nil => intro seen; simp [dedupFirstAux]
  | cons y ys ih =>
    intro seen
    by_cases hy : y ∈ seen
    · by_cases hp : p y
      · have hy2 : y ∈ seen.filter p := List.mem_filter.mpr ⟨hy, hp⟩
        simp only [dedupFirstAux, if_pos hy, List.filter_cons, if_pos hp,
          dedupFirstAux, if_pos hy2]
        exact ih seen
      · simp only [dedupFirstAux, if_pos hy, List.filter_cons, if_neg hp]
        exact ih seen
    · by_cases hp : p y
      · have hy2 : y ∉ seen.filter p := fun h => hy (List.mem_filter.mp h).1
        simp only [dedupFirstAux, if_neg hy, List.filter_cons, if_pos hp,
          if_neg hy2]
        rw [ih (y :: seen)]
        simp [List.filter_cons, if_pos hp]
      · have hseen : (y :: seen).filter p = seen.filter p := by
          simp [List.filter_cons, hp]
        simp only [dedupFirstAux, if_neg hy, List.filter_cons, if_neg hp]
        rw [ih (y :: seen), hseen]

theorem filter_dedupFirst (p : String → Bool) (xs : List String) :
    (dedupFirst xs).filter p = dedupFirst (xs.filter p) := by
  simp [dedupFirst, filter_dedupFirstAux]

/-- The subject-set resolution exactly as claim C6 words it: the caller
selection filtered to the subjects present in the lesson set when non-empty,
otherwise the deduplicated lesson-subject list in first-occurrence order
(with no restriction to non-empty subject strings). -/
def claimResolvedSubjects (selectedSubjects : List String)
    (lessons : List Lesson) : List String :=
  if selectedSubjects.length > 0 then
    selectedSubjects.filter
      (fun s => decide (s ∈ lessons.map (fun l => l.subject)))
  else dedupFirst (lessons.map (fun l => l.subject))

/-- The subject-set resolution as amended: only non-empty subject strings
count, both in the default deduplicated list and in the membership filter
applied to a non-empty selection. -/
def amendedResolvedSubjects (selectedSubjects : List String)
    (lessons : List Lesson) : List String :=
  let present :=
    dedupFirst ((lessons.map (fun l => l.subject)).filter (fun s => s != ""))
  if selectedSubjects.length > 0 then
    selectedSubjects.filter (fun s => decide (s ∈ present))
  else present

/-- Claim C6, counterexample: for a lesson list containing a single lesson
whose subject is the empty string and an empty selection, the code resolves
to the empty subject list, not to the deduplicated subject list derived from
the lessons (which would be `[""]`): `subjectsToDisplay` drops falsy (empty)
subject strings. -/
theorem c6_counterexample_empty_subject :
    subjectsToDisplay []
        [{ subject := "", topic := "t", homework := "h", date := "d" }] ≠
      claimResolvedSubjects []
        [{ subject := "", topic := "t", homework := "h", date := "d" }] := by
  decide

/-- Claim C6 (amended): the effective subject list equals the caller-selected
subjects filtered to the non-empty subjects present in the lesson set when
the selection is non-empty, and otherwise the deduplicated list of non-empty
subjects derived from the lessons in first-occurrence order; in particular,
lessons with subjects `[A, B, A, C]` and an empty selection resolve to
`[A, B, C]`. -/
theorem c6_subject_resolution_amended :
    (∀ (selectedSubjects : List String) (lessons : List Lesson),
        subjectsToDisplay selectedSubjects lessons =
          amendedResolvedSubjects selectedSubjects lessons) ∧
      subjectsToDisplay []
          [{ subject := "A", topic := "", homework := "", date := "" },
            { subject := "B", topic := "", homework := "", date := "" },
            { subject := "A", topic := "", homework := "", date := "" },
            { subject := "C", topic := "", homework := "", date := "" }] =
        ["A", "B", "C"] := by
  constructor
  · intro sel lessons
    have key : allUniqueSubjects lessons =
        dedupFirst
          ((lessons.map (fun l => l.subject)).filter (fun s => s != "")) :=
      filter_dedupFirst _ _
    unfold subjectsToDisplay amendedResolvedSubjects
    simp only [key]
  · decide

/-- Claim C3: the forward transition `handleNext` follows the spec's table:
`theory1` always advances to `theory2`; `theory2` always advances to `task`
with the task index reset to 0 and the answer cleared; `explanation` advances
to the next task (index +1, answer cleared) while tasks remain, else to the
next subject's `theory1` (subject index +1, task index 0, answer cleared)
while subjects remain, else to `completion`. -/
theorem c3_advance_follows_table (c : Config) (led : Ledger) (today : Nat) :
    (c.currentPage = Page.theory1 →
      handleNext c led today = ({ c with currentPage := Page.theory2 }, led, [])) ∧
    (c.currentPage = Page.theory2 →
      handleNext c led today =
        ({ c with currentTaskIndex := 0, selectedAnswer := none, currentPage := Page.task }, led, [])) ∧
    (c.currentPage = Page.explanation →
      (c.currentTaskIndex : Int) <
          (((c.currentReminder.map (fun r => r.tasks.length)).getD 0 : Nat) : Int) - 1 →
      handleNext c led today =
        ({ c with currentTaskIndex := c.currentTaskIndex + 1, selectedAnswer := none, currentPage := Page.task }, led, [])) ∧
    (c.currentPage = Page.explanation →
      ¬ ((c.currentTaskIndex : Int) <
          (((c.currentReminder.map (fun r => r.tasks.length)).getD 0 : Nat) : Int) - 1) →
      (c.currentSubjectIndex : Int) < (c.subjects.length : Int) - 1 →
      (handleNext c led today).1.currentPage = Page.theory1 ∧
        (handleNext c led today).1.currentSubjectIndex = c.currentSubjectIndex + 1 ∧
        (handleNext c led today).1.currentTaskIndex = 0 ∧
        (handleNext c led today).1.selectedAnswer = none) ∧
    (c.currentPage = Page.explanation →
      ¬ ((c.currentTaskIndex : Int) <
          (((c.currentReminder.map (fun r => r.tasks.length)).getD 0 : Nat) : Int) - 1) →
      ¬ ((c.currentSubjectIndex : Int) < (c.subjects.length : Int) - 1) →
      (handleNext c led today).1.currentPage = Page.completion) := by
  refine ⟨?_, ?_, ?_, ?_, ?_⟩
  · intro h
    simp [handleNext, h]
  · intro h
    simp [handleNext, h]
  · intro h h2
    simp only [handleNext, h]
    rw [if_pos h2]
  · intro h h2 h3
    simp only [handleNext, h]
    rw [if_neg h2, if_pos h3]
    simp
  · intro h h2 h3
    simp only [handleNext, h]
    rw [if_neg h2, if_neg h3]

/-- Claim C7: the backward transition `handleBack` changes state exactly as
described: `task` at index > 0 goes to the previous task's explanation (index
-1, answer cleared); `explanation` goes back to `task` with the answer
cleared; `theory2` goes to `theory1`; `theory1` at subject index > 0 goes to
the previous subject's last task's explanation, or to its `theory2` if that
subject has no tasks (or no reminder); in every other state (`task` at index
0, `theory1` at the first subject, `completion`) the state is unchanged. -/
theorem c7_retreat_behavior (c : Config) :
    (c.currentPage = Page.task → 0 < c.currentTaskIndex →
      handleBack c =
        { c with currentTaskIndex := c.currentTaskIndex - 1, selectedAnswer := none, currentPage := Page.explanation }) ∧
    (c.currentPage = Page.explanation →
      handleBack c = { c with currentPage := Page.task, selectedAnswer := none }) ∧
    (c.currentPage = Page.theory2 →
      handleBack c = { c with currentPage := Page.theory1 }) ∧
    (∀ prev, c.currentPage = Page.theory1 → 0 < c.currentSubjectIndex →
      (c.subjects[c.currentSubjectIndex - 1]?).bind
          (fun s => assocGet c.reminders s) = some prev →
      0 < prev.tasks.length →
      handleBack c =
        { c with currentSubjectIndex := c.currentSubjectIndex - 1, currentTaskIndex := prev.tasks.length - 1, currentPage := Page.explanation }) ∧
    (∀ prev, c.currentPage = Page.theory1 → 0 < c.currentSubjectIndex →
      (c.subjects[c.currentSubjectIndex - 1]?).bind
          (fun s => assocGet c.reminders s) = some prev →
      prev.tasks.length = 0 →
      handleBack c =
        { c with currentSubjectIndex := c.currentSubjectIndex - 1, currentPage := Page.theory2 }) ∧
    (c.currentPage = Page.theory1 → 0 < c.currentSubjectIndex →
      (c.subjects[c.currentSubjectIndex - 1]?).bind
          (fun s => assocGet c.reminders s) = none →
      handleBack c =
        { c with currentSubjectIndex := c.currentSubjectIndex - 1, currentPage := Page.theory2 }) ∧
    (c.currentPage = Page.task → c.currentTaskIndex = 0 → handleBack c = c) ∧
    (c.currentPage = Page.theory1 → c.currentSubjectIndex = 0 →
      handleBack c = c) ∧
    (c.currentPage = Page.completion → handleBack c = c) := by
  refine ⟨?_, ?_, ?_, ?_, ?_, ?_, ?_, ?_, ?_⟩
  · intro h h2
    simp [handleBack, h, h2]
  · intro h
    simp [handleBack, h]
  · intro h
    simp [handleBack, h]
  · intro prev h h2 hprev hlen
    simp [handleBack, h, h2, hprev, hlen]
  · intro prev h h2 hprev hlen
    simp [handleBack, h, h2, hprev, hlen]
  · intro h h2 hprev
    simp [handleBack, h, h2, hprev]
  · intro h h2
    simp [handleBack, h, h2]
  · intro h h2
    simp [handleBack, h, h2]
  · intro h
    simp [handleBack, h]

/-! ### Closed forms of answer submission -/

/-- Closed form of an accepted, not-yet-awarded answer submission. -/
theorem handleAnswerSelect_accept (c : Config) (led : Ledger) (i : Nat)
    (f : Bool) (t : Task) (subj u : String)
    (ha : c.selectedAnswer = none) (ht : c.currentTask = some t)
    (hs : truthyStr c.currentSubject = some subj)
    (hu : truthyStr c.username = some u)
    (hk : questionKey subj c.currentTaskIndex t.question ∉ c.awardedQuestions) :
    handleAnswerSelect c led i f =
      ({ c with
          selectedAnswer := some i
          currentPage := Page.explanation
          totalCoinsEarned :=
            c.totalCoinsEarned + (if i == t.correctAnswer then 10 else 5)
          awardedQuestions :=
            setAdd c.awardedQuestions (questionKey subj c.currentTaskIndex t.question)
          correctAnswers :=
            if i == t.correctAnswer then c.correctAnswers + 1 else c.correctAnswers
          totalQuestions := c.totalQuestions + 1
          subjectCorrectAnswers :=
            if i == t.correctAnswer then
              assocSet c.subjectCorrectAnswers subj (mapGet c.subjectCorrectAnswers subj + 1)
            else c.subjectCorrectAnswers
          subjectTotalQuestions :=
            assocSet c.subjectTotalQuestions subj (mapGet c.subjectTotalQuestions subj + 1) },
        (if f then led
          else (led.addCoins u (if i == t.correctAnswer then 10 else 5)).1),
        [Effect.addCoinsCall u (if i == t.correctAnswer then 10 else 5)
            (Attr.question (questionKey subj c.currentTaskIndex t.question)),
          if f then Effect.logError
          else Effect.coinsUpdated
            (led.addCoins u (if i == t.correctAnswer then 10 else 5)).2]) := by
  simp only [handleAnswerSelect, ha, ht, hs, awardCoins, hu]
  rw [if_neg hk]
  by_cases hc : (i == t.correctAnswer)
  · by_cases hf : f <;> simp [hc, hf]
  · by_cases hf : f <;> simp [hc, hf]

/-- Closed form of an accepted submission whose question key has already been
awarded: the counters still increment and the page still flips, but no coin
award is issued (only a warning is logged). -/
theorem handleAnswerSelect_already (c : Config) (led : Ledger) (i : Nat)
    (f : Bool) (t : Task) (subj u : String)
    (ha : c.selectedAnswer = none) (ht : c.currentTask = some t)
    (hs : truthyStr c.currentSubject = some subj)
    (hu : truthyStr c.username = some u)
    (hk : questionKey subj c.currentTaskIndex t.question ∈ c.awardedQuestions) :
    handleAnswerSelect c led i f =
      ({ c with
          selectedAnswer := some i
          currentPage := Page.explanation
          correctAnswers :=
            if i == t.correctAnswer then c.correctAnswers + 1 else c.correctAnswers
          totalQuestions := c.totalQuestions + 1
          subjectCorrectAnswers :=
            if i == t.correctAnswer then
              assocSet c.subjectCorrectAnswers subj (mapGet c.subjectCorrectAnswers subj + 1)
            else c.subjectCorrectAnswers
          subjectTotalQuestions :=
            assocSet c.subjectTotalQuestions subj (mapGet c.subjectTotalQuestions subj + 1) },
        led, [Effect.logWarn]) := by
  simp only [handleAnswerSelect, ha, ht, hs, awardCoins, hu]
  rw [if_pos hk]
  by_cases hc : (i == t.correctAnswer) <;> simp [hc]

/-- Claim C2: answer submission is accepted only in the `task` state with no
answer recorded (otherwise ignored with the state unchanged); when accepted
with option index `i` it records `i`, computes correctness as `i` equal to
the task's correct-option index, awards 10 coins if correct and 5 if
incorrect, increments the global and per-subject correct/total counters
(correct only when correct), and transitions unconditionally to
`explanation`. -/
theorem c2_submission_behavior (c : Config) (led : Ledger) (i : Nat) (f : Bool) :
    (c.currentPage ≠ Page.task → submitAnswer c led i f = (c, led, [])) ∧
    (c.selectedAnswer ≠ none → submitAnswer c led i f = (c, led, [])) ∧
    (∀ t subj u, c.currentPage = Page.task → c.selectedAnswer = none →
      c.currentTask = some t → truthyStr c.currentSubject = some subj →
      truthyStr c.username = some u → i < t.options.length →
      questionKey subj c.currentTaskIndex t.question ∉ c.awardedQuestions →
      ((submitAnswer c led i f).1.selectedAnswer = some i ∧
        (submitAnswer c led i f).1.currentPage = Page.explanation ∧
        (submitAnswer c led i f).1.totalQuestions = c.totalQuestions + 1 ∧
        mapGet (submitAnswer c led i f).1.subjectTotalQuestions subj =
          mapGet c.subjectTotalQuestions subj + 1 ∧
        (i = t.correctAnswer →
          (submitAnswer c led i f).1.totalCoinsEarned = c.totalCoinsEarned + 10 ∧
          (submitAnswer c led i f).1.correctAnswers = c.correctAnswers + 1 ∧
          mapGet (submitAnswer c led i f).1.subjectCorrectAnswers subj =
            mapGet c.subjectCorrectAnswers subj + 1 ∧
          Effect.addCoinsCall u 10
              (Attr.question (questionKey subj c.currentTaskIndex t.question)) ∈
            (submitAnswer c led i f).2.2) ∧
        (i ≠ t.correctAnswer →
          (submitAnswer c led i f).1.totalCoinsEarned = c.totalCoinsEarned + 5 ∧
          (submitAnswer c led i f).1.correctAnswers = c.correctAnswers ∧
          (submitAnswer c led i f).1.subjectCorrectAnswers = c.subjectCorrectAnswers ∧
          Effect.addCoinsCall u 5
              (Attr.question (questionKey subj c.currentTaskIndex t.question)) ∈
            (submitAnswer c led i f).2.2))) := by
  refine ⟨?_, ?_, ?_⟩
  · intro h
    cases hp : c.currentPage <;> simp [submitAnswer, hp]
    exact absurd hp h
  · intro h
    cases hp : c.currentPage <;> cases ht : c.currentTask <;>
      simp [submitAnswer, hp, ht, h]
  · intro t subj u hp ha ht hs hu hopt hk
    have hstep : submitAnswer c led i f = handleAnswerSelect c led i f := by
      simp [submitAnswer, hp, ht, hopt, ha]
    rw [hstep, handleAnswerSelect_accept c led i f t subj u ha ht hs hu hk]
    refine ⟨rfl, rfl, rfl, mapGet_assocSet_self _ _ _, ?_, ?_⟩
    · intro hc
      simp [hc, mapGet_assocSet_self]
    · intro hc
      have hb : (i == t.correctAnswer) = false := by
        simp [hc]
      simp [hb]

/-- Claim C9: when the ledger `addCoins` call issued by `awardCoins` fails,
the failure is only logged (no user-facing alert), the client-side session
coin counter keeps its optimistic increment (added before the call, not
rolled back), the question key stays recorded, and the ledger is unchanged. -/
theorem c9_award_failure_optimistic (c : Config) (led : Ledger) (b : Bool)
    (qKey u : String) (hu : truthyStr c.username = some u)
    (hk : qKey ∉ c.awardedQuestions) :
    (awardCoins c led b qKey true).1.totalCoinsEarned =
        c.totalCoinsEarned + (if b then 10 else 5) ∧
      (awardCoins c led b qKey true).1.awardedQuestions =
        setAdd c.awardedQuestions qKey ∧
      (awardCoins c led b qKey true).2.1 = led ∧
      (awardCoins c led b qKey true).2.2 =
        [Effect.addCoinsCall u (if b then 10 else 5) (Attr.question qKey),
          Effect.logError] := by
  simp only [awardCoins, hu]
  rw [if_neg hk]
  cases b <;> simp

/-! ### At-most-once guard for question-key coin awards -/

theorem awardCoins_qaward (c : Config) (led : Ledger) (b : Bool)
    (q : String) (f : Bool) (k : String) :
    countQuestionAwards (awardCoins c led b q f).2.2 k ≤ 1 ∧
      (1 ≤ countQuestionAwards (awardCoins c led b q f).2.2 k →
        k ∈ (awardCoins c led b q f).1.awardedQuestions) ∧
      (k ∈ c.awardedQuestions →
        countQuestionAwards (awardCoins c led b q f).2.2 k = 0) ∧
      (k ∈ c.awardedQuestions →
        k ∈ (awardCoins c led b q f).1.awardedQuestions) := by
  cases hu : truthyStr c.username with
  | none => simp [awardCoins, hu, countQuestionAwards]
  | some u =>
    by_cases hq : q ∈ c.awardedQuestions
    · simp [awardCoins, hu, hq, countQuestionAwards, isQuestionAward]
    · by_cases hqk : q = k
      · subst hqk
        cases f <;>
          simp [awardCoins, hu, hq, countQuestionAwards, isQuestionAward,
            self_mem_setAdd]
      · have hb : (q == k) = false := by
          simp [hqk]
        cases f <;>
          simp [awardCoins, hu, hq, hb, countQuestionAwards, isQuestionAward] <;>
          exact fun h => mem_setAdd_of_mem _ _ _ h

theorem handleAnswerSelect_qaward (c : Config) (led : Ledger) (i : Nat)
    (f : Bool) (k : String) :
    countQuestionAwards (handleAnswerSelect c led i f).2.2 k ≤ 1 ∧
      (1 ≤ countQuestionAwards (handleAnswerSelect c led i f).2.2 k →
        k ∈ (handleAnswerSelect c led i f).1.awardedQuestions) ∧
      (k ∈ c.awardedQuestions →
        countQuestionAwards (handleAnswerSelect c led i f).2.2 k = 0) ∧
      (k ∈ c.awardedQuestions →
        k ∈ (handleAnswerSelect c led i f).1.awardedQuestions) := by
  cases hsa : c.selectedAnswer with
  | some a => simp [handleAnswerSelect, hsa, countQuestionAwards]
  | none =>
    cases hct : c.currentTask with
    | none => simp [handleAnswerSelect, hsa, hct, countQuestionAwards]
    | some t =>
      cases hts : truthyStr c.currentSubject with
      | none => simp [handleAnswerSelect, hsa, hct, hts, countQuestionAwards]
      | some subj =>
        have key := awardCoins_qaward { c with selectedAnswer := some i } led
          (i == t.correctAnswer)
          (questionKey subj c.currentTaskIndex t.question) f k
        simp only [handleAnswerSelect, hsa, hct, hts]
        by_cases hc : (i == t.correctAnswer) <;> simp [hc] at key ⊢ <;>
          exact key

theorem submitAnswer_qaward (c : Config) (led : Ledger) (i : Nat)
    (f : Bool) (k : String) :
    countQuestionAwards (submitAnswer c led i f).2.2 k ≤ 1 ∧
      (1 ≤ countQuestionAwards (submitAnswer c led i f).2.2 k →
        k ∈ (submitAnswer c led i f).1.awardedQuestions) ∧
      (k ∈ c.awardedQuestions →
        countQuestionAwards (submitAnswer c led i f).2.2 k = 0) ∧
      (k ∈ c.awardedQuestions →
        k ∈ (submitAnswer c led i f).1.awardedQuestions) := by
  cases hp : c.currentPage
  · simp [submitAnswer, hp, countQuestionAwards]
  · simp [submitAnswer, hp, countQuestionAwards]
  · cases hct : c.currentTask with
    | none => simp [submitAnswer, hp, hct, countQuestionAwards]
    | some t =>
      have hred : submitAnswer c led i f =
          (if i < t.options.length ∧ c.selectedAnswer = none then
            handleAnswerSelect c led i f else (c, led, [])) := by
        simp [submitAnswer, hp, hct]
      rw [hred]
      by_cases hgate : i < t.options.length ∧ c.selectedAnswer = none
      · rw [if_pos hgate]
        exact handleAnswerSelect_qaward c led i f k
      · rw [if_neg hgate]
        simp [countQuestionAwards]
  · simp [submitAnswer, hp, countQuestionAwards]
  · simp [submitAnswer, hp, countQuestionAwards]

/-! ### Preservation lemmas for the award-guard sets -/

theorem awardCoins_bonus_free (c : Config) (led : Ledger) (b : Bool)
    (q : String) (f : Bool) (s0 : String) :
    (awardCoins c led b q f).1.awardedBonuses = c.awardedBonuses ∧
      countBonusAwards (awardCoins c led b q f).2.2 s0 = 0 := by
  cases hu : truthyStr c.username with
  | none => simp [awardCoins, hu, countBonusAwards]
  | some u =>
    by_cases hq : q ∈ c.awardedQuestions
    · simp [awardCoins, hu, hq, countBonusAwards, isBonusAward]
    · cases f <;> simp [awardCoins, hu, hq, countBonusAwards, isBonusAward]

theorem handleAnswerSelect_bonus_free (c : Config) (led : Ledger) (i : Nat)
    (f : Bool) (s0 : String) :
    (handleAnswerSelect c led i f).1.awardedBonuses = c.awardedBonuses ∧
      countBonusAwards (handleAnswerSelect c led i f).2.2 s0 = 0 := by
  cases hsa : c.selectedAnswer with
  | some a => simp [handleAnswerSelect, hsa, countBonusAwards]
  | none =>
    cases hct : c.currentTask with
    | none => simp [handleAnswerSelect, hsa, hct, countBonusAwards]
    | some t =>
      cases hts : truthyStr c.currentSubject with
      | none => simp [handleAnswerSelect, hsa, hct, hts, countBonusAwards]
      | some subj =>
        have key := awardCoins_bonus_free { c with selectedAnswer := some i }
          led (i == t.correctAnswer)
          (questionKey subj c.currentTaskIndex t.question) f s0
        simp only [handleAnswerSelect, hsa, hct, hts]
        by_cases hc : (i == t.correctAnswer) <;> simp [hc] at key ⊢ <;>
          exact key

theorem submitAnswer_bonus_free (c : Config) (led : Ledger) (i : Nat)
    (f : Bool) (s0 : String) :
    (submitAnswer c led i f).1.awardedBonuses = c.awardedBonuses ∧
      countBonusAwards (submitAnswer c led i f).2.2 s0 = 0 := by
  cases hp : c.currentPage
  · simp [submitAnswer, hp, countBonusAwards]
  · simp [submitAnswer, hp, countBonusAwards]
  · cases hct : c.currentTask with
    | none => simp [submitAnswer, hp, hct, countBonusAwards]
    | some t =>
      have hred : submitAnswer c led i f =
          (if i < t.options.length ∧ c.selectedAnswer = none then
            handleAnswerSelect c led i f else (c, led, [])) := by
        simp [submitAnswer, hp, hct]
      rw [hred]
      by_cases hgate : i < t.options.length ∧ c.selectedAnswer = none
      · rw [if_pos hgate]
        exact handleAnswerSelect_bonus_free c led i f s0
      · rw [if_neg hgate]
        simp [countBonusAwards]
  · simp [submitAnswer, hp, countBonusAwards]
  · simp [submitAnswer, hp, countBonusAwards]

theorem handleNext_question_free (c : Config) (led : Ledger) (today : Nat)
    (k : String) :
    (handleNext c led today).1.awardedQuestions = c.awardedQuestions ∧
      countQuestionAwards (handleNext c led today).2.2 k = 0 := by
  cases hp : c.currentPage
  · simp [handleNext, hp, countQuestionAwards]
  · simp [handleNext, hp, countQuestionAwards]
  · simp [handleNext, hp, countQuestionAwards]
  · simp only [handleNext, hp]
    split
    · simp [countQuestionAwards]
    · cases hcs : truthyStr c.currentSubject with
      | none =>
        simp only [hcs]
        repeat' split
        all_goals simp [countQuestionAwards]
      | some subj =>
        cases hcu : truthyStr c.username with
        | none =>
          simp only [hcs, hcu]
          repeat' split
          all_goals simp [countQuestionAwards]
        | some username =>
          simp only [hcs, hcu]
          repeat' split
          all_goals simp [countQuestionAwards, isQuestionAward]
  · simp [handleNext, hp, countQuestionAwards]

theorem handleNext_bonus_guard (c : Config) (led : Ledger) (today : Nat)
    (s0 : String) :
    countBonusAwards (handleNext c led today).2.2 s0 ≤ 1 ∧
      (1 ≤ countBonusAwards (handleNext c led today).2.2 s0 →
        ("perfect-" ++ s0) ∈ (handleNext c led today).1.awardedBonuses) ∧
      (("perfect-" ++ s0) ∈ c.awardedBonuses →
        countBonusAwards (handleNext c led today).2.2 s0 = 0) ∧
      (("perfect-" ++ s0) ∈ c.awardedBonuses →
        ("perfect-" ++ s0) ∈ (handleNext c led today).1.awardedBonuses) := by
  cases hp : c.currentPage
  · simp [handleNext, hp, countBonusAwards]
  · simp [handleNext, hp, countBonusAwards]
  · simp [handleNext, hp, countBonusAwards]
  · simp only [handleNext, hp]
    split
    · simp [countBonusAwards]
    · cases hcs : truthyStr c.currentSubject with
      | none =>
        simp only [hcs]
        repeat' split
        all_goals simp [countBonusAwards]
      | some subj =>
        cases hcu : truthyStr c.username with
        | none =>
          simp only [hcs, hcu]
          repeat' split
          all_goals simp [countBonusAwards]
        | some username =>
          simp only [hcs, hcu]
          by_cases hsubj : subj = s0
          · subst hsubj
            repeat' split
            all_goals
              simp_all [countBonusAwards, isBonusAward, mem_setAdd]
          · have hb : (s0 == subj) = false :=
              beq_eq_false_iff_ne.mpr (Ne.symm hsubj)
            have hb2 : (subj == s0) = false :=
              beq_eq_false_iff_ne.mpr hsubj
            repeat' split
            all_goals
              simp_all [countBonusAwards, isBonusAward, mem_setAdd]
  · simp [handleNext, hp, countBonusAwards]

theorem handleBack_preserves (c : Config) :
    (handleBack c).awardedQuestions = c.awardedQuestions ∧
      (handleBack c).awardedBonuses = c.awardedBonuses := by
  unfold handleBack
  split_ifs <;> try exact ⟨rfl, rfl⟩
  split
  · split_ifs <;> exact ⟨rfl, rfl⟩
  · exact ⟨rfl, rfl⟩

theorem loadReminders_preserves (c : Config)
    (r : Except String (List (String × ReminderResponse))) :
    (loadReminders c r).awardedQuestions = c.awardedQuestions ∧
      (loadReminders c r).awardedBonuses = c.awardedBonuses := by
  simp only [loadReminders]
  refine ⟨?_, ?_⟩ <;> (repeat' split) <;> rfl

theorem claimBonusPress_award_free (c : Config) (led : Ledger) (today : Nat)
    (k s0 : String) :
    (claimBonusPress c led today).1.awardedQuestions = c.awardedQuestions ∧
      (claimBonusPress c led today).1.awardedBonuses = c.awardedBonuses ∧
      countQuestionAwards (claimBonusPress c led today).2.2 k = 0 ∧
      countBonusAwards (claimBonusPress c led today).2.2 s0 = 0 := by
  cases hu : truthyStr c.username with
  | none => simp [claimBonusPress, hu, countQuestionAwards, countBonusAwards]
  | some u =>
    simp only [claimBonusPress, hu]
    split <;> simp [countQuestionAwards, countBonusAwards, isQuestionAward,
      isBonusAward]

theorem countQuestionAwards_append (a b : List Effect) (k : String) :
    countQuestionAwards (a ++ b) k =
      countQuestionAwards a k + countQuestionAwards b k := by
  simp [countQuestionAwards, List.filter_append]

theorem countBonusAwards_append (a b : List Effect) (s0 : String) :
    countBonusAwards (a ++ b) s0 =
      countBonusAwards a s0 + countBonusAwards b s0 := by
  simp [countBonusAwards, List.filter_append]

/-- One step of the session machine awards a question key at most once, only
while recording it in `awardedQuestions`, never for an already-recorded key;
and likewise for the per-subject perfect-score bonus with `awardedBonuses`.
Both guard sets only grow. -/
theorem step_guards (today : Nat) (s : Config × Ledger) (e : Event)
    (k s0 : String) :
    countQuestionAwards (step today s e).2 k ≤ 1 ∧
      (1 ≤ countQuestionAwards (step today s e).2 k →
        k ∈ (step today s e).1.1.awardedQuestions) ∧
      (k ∈ s.1.awardedQuestions → countQuestionAwards (step today s e).2 k = 0) ∧
      (k ∈ s.1.awardedQuestions → k ∈ (step today s e).1.1.awardedQuestions) ∧
      countBonusAwards (step today s e).2 s0 ≤ 1 ∧
      (1 ≤ countBonusAwards (step today s e).2 s0 →
        ("perfect-" ++ s0) ∈ (step today s e).1.1.awardedBonuses) ∧
      (("perfect-" ++ s0) ∈ s.1.awardedBonuses →
        countBonusAwards (step today s e).2 s0 = 0) ∧
      (("perfect-" ++ s0) ∈ s.1.awardedBonuses →
        ("perfect-" ++ s0) ∈ (step today s e).1.1.awardedBonuses) := by
  cases e with
  | fetched r =>
    simp only [step]
    split
    · have h1 := loadReminders_preserves s.1 r
      simp [countQuestionAwards, countBonusAwards, h1.1, h1.2]
    · simp [countQuestionAwards, countBonusAwards]
  | close =>
    simp [step, countQuestionAwards, countBonusAwards, isQuestionAward,
      isBonusAward]
  | submit i f =>
    simp only [step]
    split_ifs with h1 h2 h3
    · simp [countQuestionAwards, countBonusAwards]
    · simp [countQuestionAwards, countBonusAwards]
    · simp [countQuestionAwards, countBonusAwards]
    · have hq := submitAnswer_qaward s.1 s.2 i f k
      have hb := submitAnswer_bonus_free s.1 s.2 i f s0
      refine ⟨hq.1, hq.2.1, hq.2.2.1, hq.2.2.2, ?_, ?_, ?_, ?_⟩ <;>
        simp [hb.1, hb.2]
  | next =>
    simp only [step]
    split_ifs with h1 h2 h3
    · simp [countQuestionAwards, countBonusAwards]
    · simp [countQuestionAwards, countBonusAwards]
    · simp [countQuestionAwards, countBonusAwards]
    · have hq := handleNext_question_free s.1 s.2 today k
      have hb := handleNext_bonus_guard s.1 s.2 today s0
      refine ⟨?_, ?_, ?_, ?_, hb.1, hb.2.1, hb.2.2.1, hb.2.2.2⟩ <;>
        simp [hq.1, hq.2]
  | back =>
    simp only [step]
    split_ifs with h1 h2 h3 h4
    · simp [countQuestionAwards, countBonusAwards]
    · simp [countQuestionAwards, countBonusAwards]
    · simp [countQuestionAwards, countBonusAwards]
    · have hpres := handleBack_preserves s.1
      simp [countQuestionAwards, countBonusAwards, hpres.1, hpres.2]
    · simp [countQuestionAwards, countBonusAwards]
  | claim =>
    simp only [step]
    split_ifs with h1 h2 h3 h4
    · simp [countQuestionAwards, countBonusAwards]
    · simp [countQuestionAwards, countBonusAwards]
    · simp [countQuestionAwards, countBonusAwards]
    · have hfree := claimBonusPress_award_free s.1 s.2 today k s0
      simp [hfree.1, hfree.2.1, hfree.2.2.1, hfree.2.2.2]
    · simp [countQuestionAwards, countBonusAwards]

/-- Along any trace, each question key is awarded at most once (never again
once recorded), and each subject's perfect-score bonus is granted at most
once (never again once recorded). -/
theorem run_guards (today : Nat) (events : List Event) :
    ∀ (s : Config × Ledger) (k s0 : String),
      (countQuestionAwards (run today s events).2 k ≤ 1 ∧
        (k ∈ s.1.awardedQuestions →
          countQuestionAwards (run today s events).2 k = 0)) ∧
      (countBonusAwards (run today s events).2 s0 ≤ 1 ∧
        (("perfect-" ++ s0) ∈ s.1.awardedBonuses →
          countBonusAwards (run today s events).2 s0 = 0)) := by
  induction events with
  | nil =>
    intro s k s0
    simp [run, countQuestionAwards, countBonusAwards]
  | cons e es ih =>
    intro s k s0
    obtain ⟨q1, q2, q3, q4, b1, b2, b3, b4⟩ := step_guards today s e k s0
    obtain ⟨⟨rq1, rq2⟩, ⟨rb1, rb2⟩⟩ := ih (step today s e).1 k s0
    simp only [run, countQuestionAwards_append, countBonusAwards_append]
    refine ⟨⟨?_, ?_⟩, ⟨?_, ?_⟩⟩
    · by_cases hge : 1 ≤ countQuestionAwards (step today s e).2 k
      · have hb0 := rq2 (q2 hge)
        omega
      · have ha0 : countQuestionAwards (step today s e).2 k = 0 := by omega
        omega
    · intro hk
      have ha0 := q3 hk
      have hb0 := rq2 (q4 hk)
      omega
    · by_cases hge : 1 ≤ countBonusAwards (step today s e).2 s0
      · have hb0 := rb2 (b2 hge)
        omega
      · have ha0 : countBonusAwards (step today s e).2 s0 = 0 := by omega
        omega
    · intro hk
      have ha0 := b3 hk
      have hb0 := rb2 (b4 hk)
      omega

/-- Claim C1: in any session (any trace of UI events from a fresh session
state), the coin-award call `addCoins` attributable to a given question key
is issued at most once, even if answer submission fires repeatedly: the
`awardedQuestions` set is checked before awarding and the key recorded
before the asynchronous `addCoins` call is issued. -/
theorem c1_question_award_at_most_once (selectedSubjects : List String)
    (lessons : List Lesson) (username : Option String) (led0 : Ledger)
    (today : Nat) (events : List Event) (k : String) :
    countQuestionAwards
        (run today (startSession selectedSubjects lessons username, led0)
          events).2 k ≤ 1 :=
  ((run_guards today events
    (startSession selectedSubjects lessons username, led0) k "").1).1

theorem markSubjectCompleted_mem (led : Ledger) (u subj : String) :
    (u, subj) ∈ (led.markSubjectCompleted u subj).completedSubjects := by
  unfold Ledger.markSubjectCompleted
  by_cases h : (u, subj) ∈ led.completedSubjects <;> simp [h]

/-- Claim C4: when the last task's explanation of a subject is left via
`handleNext`, the subject is marked complete in the Reward Ledger; if the
subject has exactly 3 tasks, its total counter is 3, its correct counter is 3
and no perfect-score bonus was granted yet, a one-time +20 coin bonus is
granted; and along any session trace the +20 bonus is granted at most once
per subject (guarded by the `awardedBonuses` set). -/
theorem c4_subject_completion_and_bonus :
    (∀ (c : Config) (led : Ledger) (today : Nat) (subj u : String),
      c.currentPage = Page.explanation →
      ¬ ((c.currentTaskIndex : Int) <
          (((c.currentReminder.map (fun r => r.tasks.length)).getD 0 : Nat) : Int) - 1) →
      truthyStr c.currentSubject = some subj →
      truthyStr c.username = some u →
      (Effect.markCompleted u subj ∈ (handleNext c led today).2.2 ∧
        (u, subj) ∈ (handleNext c led today).2.1.completedSubjects ∧
        (mapGet c.subjectTotalQuestions subj = 3 →
          mapGet c.subjectCorrectAnswers subj = 3 →
          c.currentReminder.map (fun r => r.tasks.length) = some 3 →
          ("perfect-" ++ subj) ∉ c.awardedBonuses →
          Effect.addCoinsCall u 20 (Attr.perfectBonus subj) ∈
              (handleNext c led today).2.2 ∧
            (handleNext c led today).1.totalCoinsEarned =
              c.totalCoinsEarned + 20 ∧
            ("perfect-" ++ subj) ∈ (handleNext c led today).1.awardedBonuses))) ∧
    (∀ (selectedSubjects : List String) (lessons : List Lesson)
        (username : Option String) (led0 : Ledger) (today : Nat)
        (events : List Event) (s0 : String),
      countBonusAwards
        (run today (startSession selectedSubjects lessons username, led0)
          events).2 s0 ≤ 1) := by
  constructor
  · intro c led today subj u hp h2 hcs hcu
    simp only [handleNext, hp]
    rw [if_neg h2]
    simp only [hcs, hcu]
    by_cases hcond : (mapGet c.subjectTotalQuestions subj = 3 ∧
        mapGet c.subjectCorrectAnswers subj = 3 ∧
        c.currentReminder.map (fun r => r.tasks.length) = some 3 ∧
        ¬ ("perfect-" ++ subj) ∈ c.awardedBonuses)
    · rw [if_pos hcond]
      refine ⟨?_, ?_, ?_⟩
      · split <;> simp
      · split <;> simp [Ledger.addCoins, markSubjectCompleted_mem]
      · intro h1 h2b h3 h4
        refine ⟨?_, ?_, ?_⟩ <;> (repeat' split) <;>
          simp [self_mem_setAdd]
    · rw [if_neg hcond]
      refine ⟨?_, ?_, ?_⟩
      · split <;> simp
      · split <;> simp [markSubjectCompleted_mem]
      · intro h1 h2b h3 h4
        exact absurd ⟨h1, h2b, h3, h4⟩ hcond
  · intro sel lessons username led0 today events s0
    exact ((run_guards today events
      (startSession sel lessons username, led0) "" s0).2).1

/-- Sample task used by concrete witnesses (correct option index 1). -/
def sampleTask : Task :=
  { difficulty := "easy", question := "q1", options := ["a", "b"],
    correctAnswer := 1, explanation := "because" }

/-- Sample reminder with exactly three tasks. -/
def sampleReminder3 : ReminderResponse :=
  { theory := { content := "w1 w2", keyPoints := ["k"] },
    tasks := [sampleTask, sampleTask, sampleTask] }

/-- Sample session state sitting on the last task's explanation of subject
`A` with a perfect 3/3 score and no bonus granted yet. -/
def sampleConfigLastExplanation : Config :=
  { selectedSubjects := []
    lessons := [{ subject := "A", topic := "", homework := "", date := "" }]
    username := some "juris"
    currentSubjectIndex := 0
    currentTaskIndex := 2
    selectedAnswer := some 1
    currentPage := Page.explanation
    reminders := [("A", sampleReminder3)]
    isLoading := false
    error := none
    totalCoinsEarned := 30
    correctAnswers := 3
    totalQuestions := 3
    subjectCorrectAnswers := [("A", 3)]
    subjectTotalQuestions := [("A", 3)]
    awardedQuestions := ["A-0-q1", "A-1-q1", "A-2-q1"]
    awardedBonuses := []
    canClaimCompletionBonus := false
    hasClaimedBonus := false }

/-- Empty ledger for witnesses. -/
def emptyLedger : Ledger :=
  { coins := [], completedSubjects := [], claimedDays := [] }

/-- Witness for claim C4 at a concrete session state: leaving the last
explanation of subject `A` (3 tasks, 3/3 correct, bonus not yet granted)
marks `A` complete and grants the +20 bonus. -/
theorem c4_witness :
    Effect.markCompleted "juris" "A" ∈
        (handleNext sampleConfigLastExplanation emptyLedger 0).2.2 ∧
      ("juris", "A") ∈
        (handleNext sampleConfigLastExplanation emptyLedger 0).2.1.completedSubjects ∧
      Effect.addCoinsCall "juris" 20 (Attr.perfectBonus "A") ∈
        (handleNext sampleConfigLastExplanation emptyLedger 0).2.2 ∧
      (handleNext sampleConfigLastExplanation emptyLedger 0).1.totalCoinsEarned =
        sampleConfigLastExplanation.totalCoinsEarned + 20 ∧
      ("perfect-" ++ "A") ∈
        (handleNext sampleConfigLastExplanation emptyLedger 0).1.awardedBonuses := by
  have h := (c4_subject_completion_and_bonus.1) sampleConfigLastExplanation
    emptyLedger 0 "A" "juris" rfl (by decide) (by decide) (by decide)
  have hb := h.2.2 (by decide) (by decide) (by decide) (by decide)
  exact ⟨h.1, h.2.1, hb.1, hb.2.1, hb.2.2⟩

/-! ### Frame lemmas: nothing but the claim action touches the claim state -/

theorem awardCoins_frame (c : Config) (led : Ledger) (b : Bool)
    (q : String) (f : Bool) :
    (awardCoins c led b q f).2.1.claimedDays = led.claimedDays ∧
      (awardCoins c led b q f).1.hasClaimedBonus = c.hasClaimedBonus := by
  cases hu : truthyStr c.username with
  | none => simp [awardCoins, hu]
  | some u =>
    by_cases hq : q ∈ c.awardedQuestions
    · simp [awardCoins, hu, hq]
    · cases f <;> simp [awardCoins, hu, hq, Ledger.addCoins]

theorem handleAnswerSelect_frame (c : Config) (led : Ledger) (i : Nat)
    (f : Bool) :
    (handleAnswerSelect c led i f).2.1.claimedDays = led.claimedDays ∧
      (handleAnswerSelect c led i f).1.hasClaimedBonus = c.hasClaimedBonus := by
  cases hsa : c.selectedAnswer with
  | some a => simp [handleAnswerSelect, hsa]
  | none =>
    cases hct : c.currentTask with
    | none => simp [handleAnswerSelect, hsa, hct]
    | some t =>
      cases hts : truthyStr c.currentSubject with
      | none => simp [handleAnswerSelect, hsa, hct, hts]
      | some subj =>
        have key := awardCoins_frame { c with selectedAnswer := some i } led
          (i == t.correctAnswer)
          (questionKey subj c.currentTaskIndex t.question) f
        simp only [handleAnswerSelect, hsa, hct, hts]
        by_cases hc : (i == t.correctAnswer) <;> simp [hc] at key ⊢ <;>
          exact key

theorem submitAnswer_frame (c : Config) (led : Ledger) (i : Nat) (f : Bool) :
    (submitAnswer c led i f).2.1.claimedDays = led.claimedDays ∧
      (submitAnswer c led i f).1.hasClaimedBonus = c.hasClaimedBonus := by
  cases hp : c.currentPage
  · simp [submitAnswer, hp]
  · simp [submitAnswer, hp]
  · cases hct : c.currentTask with
    | none => simp [submitAnswer, hp, hct]
    | some t =>
      have hred : submitAnswer c led i f =
          (if i < t.options.length ∧ c.selectedAnswer = none then
            handleAnswerSelect c led i f else (c, led, [])) := by
        simp [submitAnswer, hp, hct]
      rw [hred]
      by_cases hgate : i < t.options.length ∧ c.selectedAnswer = none
      · rw [if_pos hgate]
        exact handleAnswerSelect_frame c led i f
      · rw [if_neg hgate]
        exact ⟨rfl, rfl⟩
  · simp [submitAnswer, hp]
  · simp [submitAnswer, hp]

theorem handleNext_frame (c : Config) (led : Ledger) (today : Nat) :
    (handleNext c led today).2.1.claimedDays = led.claimedDays ∧
      (handleNext c led today).1.hasClaimedBonus = c.hasClaimedBonus := by
  cases hp : c.currentPage
  · simp [handleNext, hp]
  · simp [handleNext, hp]
  · simp [handleNext, hp]
  · simp only [handleNext, hp]
    repeat' split
    all_goals simp [Ledger.markSubjectCompleted, Ledger.addCoins]
  · simp [handleNext, hp]

theorem handleBack_frame (c : Config) :
    (handleBack c).hasClaimedBonus = c.hasClaimedBonus := by
  unfold handleBack
  split_ifs <;> try rfl
  split
  · split_ifs <;> rfl
  · rfl

theorem loadReminders_frame (c : Config)
    (r : Except String (List (String × ReminderResponse))) :
    (loadReminders c r).hasClaimedBonus = c.hasClaimedBonus := by
  simp only [loadReminders]
  (repeat' split) <;> rfl

/-- Claim C5: on reaching `completion` the claim-eligibility flag equals
"the Reward Ledger reports all subjects complete and the once-per-day bonus
is unclaimed today"; no event other than the explicit claim action touches
the bonus-claim state; a claim press with the bonus unclaimed today adds
exactly 100 coins, marks today claimed and hides the button; and once a
ledger claim succeeds, a second `claimCompletionBonus` call on the same day
returns failure and leaves the ledger unchanged. -/
theorem c5_completion_bonus_claim :
    (∀ (c : Config) (led : Ledger) (today : Nat) (u : String),
      c.currentPage = Page.explanation →
      ¬ ((c.currentTaskIndex : Int) <
          (((c.currentReminder.map (fun r => r.tasks.length)).getD 0 : Nat) : Int) - 1) →
      ¬ ((c.currentSubjectIndex : Int) < (c.subjects.length : Int) - 1) →
      truthyStr c.username = some u →
      0 < c.subjects.length →
      ((handleNext c led today).1.currentPage = Page.completion ∧
        (handleNext c led today).1.canClaimCompletionBonus =
          ((handleNext c led today).2.1.areAllDailyTasksCompleted u
              c.subjects.length &&
            ! (handleNext c led today).2.1.hasClaimedCompletionBonusToday u
              today))) ∧
    (∀ (today : Nat) (s : Config × Ledger) (e : Event), e ≠ Event.claim →
      (step today s e).1.2.claimedDays = s.2.claimedDays ∧
        (step today s e).1.1.hasClaimedBonus = s.1.hasClaimedBonus) ∧
    (∀ (c : Config) (led : Ledger) (today : Nat) (u : String),
      truthyStr c.username = some u →
      led.hasClaimedCompletionBonusToday u today = false →
      ((claimBonusPress c led today).1.hasClaimedBonus = true ∧
        (claimBonusPress c led today).1.totalCoinsEarned =
          c.totalCoinsEarned + 100 ∧
        (claimBonusPress c led today).1.canClaimCompletionBonus = false ∧
        (u, today) ∈ (claimBonusPress c led today).2.1.claimedDays)) ∧
    (∀ (led led2 : Ledger) (u : String) (today n : Nat),
      led.claimCompletionBonus u today = (led2, ClaimResult.success n) →
      led2.claimCompletionBonus u today = (led2, ClaimResult.failure)) := by
  refine ⟨?_, ?_, ?_, ?_⟩
  · intro c led today u hp h2 h3 hcu hlen
    simp only [handleNext, hp]
    rw [if_neg h2, if_neg h3]
    simp only [hcu]
    rw [if_pos hlen]
    constructor
    · trivial
    · cases hcs : truthyStr c.currentSubject with
      | none =>
        simp only [hcs]
        split <;> rename_i hb <;> simp [hb]
      | some subj =>
        simp only [hcs]
        by_cases hcond : (mapGet c.subjectTotalQuestions subj = 3 ∧
            mapGet c.subjectCorrectAnswers subj = 3 ∧
            c.currentReminder.map (fun r => r.tasks.length) = some 3 ∧
            ¬ ("perfect-" ++ subj) ∈ c.awardedBonuses)
        · rw [if_pos hcond]
          split <;> rename_i hb <;> simp [hb]
        · rw [if_neg hcond]
          split <;> rename_i hb <;> simp [hb]
  · intro today s e hne
    cases e with
    | fetched r =>
      simp only [step]
      split
      · exact ⟨rfl, loadReminders_frame s.1 r⟩
      · exact ⟨rfl, rfl⟩
    | close => exact ⟨rfl, rfl⟩
    | submit i f =>
      simp only [step]
      split_ifs with h1 h2 h3
      · exact ⟨rfl, rfl⟩
      · exact ⟨rfl, rfl⟩
      · exact ⟨rfl, rfl⟩
      · exact submitAnswer_frame s.1 s.2 i f
    | next =>
      simp only [step]
      split_ifs with h1 h2 h3
      · exact ⟨rfl, rfl⟩
      · exact ⟨rfl, rfl⟩
      · exact ⟨rfl, rfl⟩
      · exact handleNext_frame s.1 s.2 today
    | back =>
      simp only [step]
      split_ifs with h1 h2 h3 h4
      · exact ⟨rfl, rfl⟩
      · exact ⟨rfl, rfl⟩
      · exact ⟨rfl, rfl⟩
      · exact ⟨rfl, handleBack_frame s.1⟩
      · exact ⟨rfl, rfl⟩
    | claim => exact absurd rfl hne
  · intro c led today u hcu hnc
    have hmem : (u, today) ∉ led.claimedDays := by
      simpa [Ledger.hasClaimedCompletionBonusToday] using hnc
    simp only [claimBonusPress, hcu, Ledger.claimCompletionBonus]
    rw [if_neg hmem]
    simp [Ledger.addCoins]
  · intro led led2 u today n h
    simp only [Ledger.claimCompletionBonus] at h ⊢
    by_cases hmem : (u, today) ∈ led.claimedDays
    · rw [if_pos hmem] at h
      simp at h
    · rw [if_neg hmem] at h
      have h1 : led2 =
          { (led.addCoins u 100).1 with
              claimedDays := (u, today) :: (led.addCoins u 100).1.claimedDays } :=
        (Prod.ext_iff.mp h).1.symm
      subst h1
      rw [if_pos (by simp)]

/-- The ledger state after the sample user claimed the day-0 completion
bonus on the empty ledger. -/
def sampleClaimedLedger : Ledger :=
  { coins := [("juris", 100)], completedSubjects := [],
    claimedDays := [("juris", 0)] }

/-- Witness for claim C5 at concrete inputs: finishing the sample session
reaches `completion` with the eligibility flag equal to the ledger's report;
a `next` event leaves the claim state alone; a claim press on an unclaimed
day adds 100 coins and marks the day; and re-claiming the already-claimed
ledger fails without changing it. -/
theorem c5_witness :
    ((handleNext sampleConfigLastExplanation emptyLedger 0).1.currentPage =
        Page.completion ∧
      (handleNext sampleConfigLastExplanation emptyLedger 0).1.canClaimCompletionBonus =
        ((handleNext sampleConfigLastExplanation emptyLedger 0).2.1.areAllDailyTasksCompleted
            "juris" sampleConfigLastExplanation.subjects.length &&
          ! (handleNext sampleConfigLastExplanation emptyLedger 0).2.1.hasClaimedCompletionBonusToday
            "juris" 0)) ∧
    ((step 0 (sampleConfigLastExplanation, emptyLedger) Event.next).1.2.claimedDays =
        emptyLedger.claimedDays ∧
      (step 0 (sampleConfigLastExplanation, emptyLedger) Event.next).1.1.hasClaimedBonus =
        sampleConfigLastExplanation.hasClaimedBonus) ∧
    ((claimBonusPress sampleConfigLastExplanation emptyLedger 0).1.hasClaimedBonus = true ∧
      (claimBonusPress sampleConfigLastExplanation emptyLedger 0).1.totalCoinsEarned =
        sampleConfigLastExplanation.totalCoinsEarned + 100 ∧
      (claimBonusPress sampleConfigLastExplanation emptyLedger 0).1.canClaimCompletionBonus = false ∧
      ("juris", 0) ∈
        (claimBonusPress sampleConfigLastExplanation emptyLedger 0).2.1.claimedDays) ∧
    sampleClaimedLedger.claimCompletionBonus "juris" 0 =
      (sampleClaimedLedger, ClaimResult.failure) := by
  refine ⟨?_, ?_, ?_, ?_⟩
  · exact c5_completion_bonus_claim.1 sampleConfigLastExplanation emptyLedger
      0 "juris" rfl (by decide) (by decide) (by decide) (by decide)
  · exact c5_completion_bonus_claim.2.1 0
      (sampleConfigLastExplanation, emptyLedger) Event.next
      (fun h => Event.noConfusion h)
  · exact c5_completion_bonus_claim.2.2.1 sampleConfigLastExplanation
      emptyLedger 0 "juris" (by decide) (by decide)
  · exact c5_completion_bonus_claim.2.2.2 emptyLedger sampleClaimedLedger
      "juris" 0 100 (by decide)

/-- Claim C8: a failed Content Provider fetch puts the session into an error
state carrying the failure message (or a default when the message is empty)
with loading finished; no accumulator, progress or reminder state is
advanced; and the error state is terminal: with the error set every event
other than leaving the screen is a no-op with no effects, while closing only
emits the close signal. -/
theorem c8_fetch_failure_terminal :
    (∀ (c : Config) (msg : String),
      0 < (subjectsToDisplay c.selectedSubjects c.lessons).length →
      ((loadReminders c (Except.error msg)).error =
          some (if msg = "" then defaultFetchErrorMessage else msg) ∧
        (loadReminders c (Except.error msg)).isLoading = false ∧
        (loadReminders c (Except.error msg)).currentPage = c.currentPage ∧
        (loadReminders c (Except.error msg)).currentSubjectIndex =
          c.currentSubjectIndex ∧
        (loadReminders c (Except.error msg)).currentTaskIndex =
          c.currentTaskIndex ∧
        (loadReminders c (Except.error msg)).selectedAnswer = c.selectedAnswer ∧
        (loadReminders c (Except.error msg)).reminders = c.reminders ∧
        (loadReminders c (Except.error msg)).totalCoinsEarned =
          c.totalCoinsEarned ∧
        (loadReminders c (Except.error msg)).correctAnswers = c.correctAnswers ∧
        (loadReminders c (Except.error msg)).totalQuestions = c.totalQuestions ∧
        (loadReminders c (Except.error msg)).subjectCorrectAnswers =
          c.subjectCorrectAnswers ∧
        (loadReminders c (Except.error msg)).subjectTotalQuestions =
          c.subjectTotalQuestions ∧
        (loadReminders c (Except.error msg)).awardedQuestions =
          c.awardedQuestions ∧
        (loadReminders c (Except.error msg)).awardedBonuses =
          c.awardedBonuses)) ∧
    (∀ (today : Nat) (s : Config × Ledger) (e : Event),
      s.1.error.isSome → s.1.isLoading = false → e ≠ Event.close →
      step today s e = (s, [])) ∧
    (∀ (today : Nat) (s : Config × Ledger),
      step today s Event.close = (s, [Effect.closed])) := by
  refine ⟨?_, ?_, ?_⟩
  · intro c msg hsubj
    have hne : ¬ ((if c.selectedSubjects.length > 0 then
        c.selectedSubjects.filter
          (fun s => decide (s ∈ allUniqueSubjects c.lessons))
        else allUniqueSubjects c.lessons).length = 0) := by
      have h2 : 0 < (if c.selectedSubjects.length > 0 then
          c.selectedSubjects.filter
            (fun s => decide (s ∈ allUniqueSubjects c.lessons))
          else allUniqueSubjects c.lessons).length := hsubj
      omega
    simp only [loadReminders]
    rw [if_neg hne]
    exact ⟨rfl, rfl, rfl, rfl, rfl, rfl, rfl, rfl, rfl, rfl, rfl, rfl, rfl, rfl⟩
  · intro today s e herr hload hne
    cases e with
    | fetched r =>
      simp only [step]
      rw [if_neg (by simp [hload])]
    | close => exact absurd rfl hne
    | submit i f =>
      simp only [step]
      rw [if_neg (by simp [hload]), if_pos herr]
    | next =>
      simp only [step]
      rw [if_neg (by simp [hload]), if_pos herr]
    | back =>
      simp only [step]
      rw [if_neg (by simp [hload]), if_pos herr]
    | claim =>
      simp only [step]
      rw [if_neg (by simp [hload]), if_pos herr]
  · intro today s
    rfl

/-- If the current subject's total counter is not exactly 3, `handleNext`
never emits that subject's perfect-score bonus. -/
theorem handleNext_no_bonus_of_total_ne3 (c : Config) (led2 : Ledger)
    (today : Nat) (subj : String)
    (hs : truthyStr c.currentSubject = some subj)
    (htot : mapGet c.subjectTotalQuestions subj ≠ 3) :
    countBonusAwards (handleNext c led2 today).2.2 subj = 0 := by
  cases hp : c.currentPage
  · simp [handleNext, hp, countBonusAwards]
  · simp [handleNext, hp, countBonusAwards]
  · simp [handleNext, hp, countBonusAwards]
  · simp only [handleNext, hp]
    split
    · simp [countBonusAwards]
    · simp only [hs]
      cases hu : truthyStr c.username with
      | none =>
        simp only [hu]
        split <;> simp [countBonusAwards]
      | some u =>
        simp only [hu]
        split
        all_goals
          rw [if_neg (show ¬ (mapGet c.subjectTotalQuestions subj = 3 ∧
            mapGet c.subjectCorrectAnswers subj = 3 ∧
            c.currentReminder.map (fun r => r.tasks.length) = some 3 ∧
            ¬ ("perfect-" ++ subj) ∈ c.awardedBonuses) from
              fun hcond => htot hcond.1)]
        all_goals simp [countBonusAwards, isBonusAward]
  · simp [handleNext, hp, countBonusAwards]

/-- Claim C10 (implicit): retreating from an explanation to its task clears
the recorded answer, so a second submission on the same task passes the
single-fire guard and increments the global and per-subject total counters
again (so a per-subject total of 3 becomes 4, which defeats the perfect-score
bonus condition requiring exactly 3), while no coins are awarded because the
question key is already in `awardedQuestions` (only a warning is logged and
the ledger is untouched). -/
theorem c10_reanswer_after_back (c : Config) (led : Ledger) (i : Nat)
    (f : Bool) (t : Task) (subj u : String)
    (hp : c.currentPage = Page.explanation)
    (ht : c.currentTask = some t)
    (hs : truthyStr c.currentSubject = some subj)
    (hu : truthyStr c.username = some u)
    (hopt : i < t.options.length)
    (hk : questionKey subj c.currentTaskIndex t.question ∈ c.awardedQuestions) :
    (handleBack c).currentPage = Page.task ∧
      (handleBack c).selectedAnswer = none ∧
      (submitAnswer (handleBack c) led i f).1.totalQuestions =
        c.totalQuestions + 1 ∧
      mapGet (submitAnswer (handleBack c) led i f).1.subjectTotalQuestions
          subj = mapGet c.subjectTotalQuestions subj + 1 ∧
      (submitAnswer (handleBack c) led i f).1.totalCoinsEarned =
        c.totalCoinsEarned ∧
      (submitAnswer (handleBack c) led i f).1.awardedQuestions =
        c.awardedQuestions ∧
      (submitAnswer (handleBack c) led i f).2.1 = led ∧
      (submitAnswer (handleBack c) led i f).2.2 = [Effect.logWarn] ∧
      (mapGet c.subjectTotalQuestions subj = 3 →
        mapGet (submitAnswer (handleBack c) led i f).1.subjectTotalQuestions
            subj = 4 ∧
          ∀ (led2 : Ledger) (today : Nat),
            countBonusAwards
              (handleNext (submitAnswer (handleBack c) led i f).1 led2
                today).2.2 subj = 0) := by
  have hback : handleBack c =
      { c with currentPage := Page.task, selectedAnswer := none } := by
    simp [handleBack, hp]
  rw [hback]
  have ht2 : ({ c with currentPage := Page.task, selectedAnswer := none } : Config).currentTask = some t := ht
  have hs2 : truthyStr ({ c with currentPage := Page.task, selectedAnswer := none } : Config).currentSubject = some subj := hs
  have hu2 : truthyStr ({ c with currentPage := Page.task, selectedAnswer := none } : Config).username = some u := hu
  have hred : submitAnswer
      { c with currentPage := Page.task, selectedAnswer := none } led i f =
      handleAnswerSelect
        { c with currentPage := Page.task, selectedAnswer := none } led i f := by
    simp [submitAnswer, ht2, hopt]
  rw [hred, handleAnswerSelect_already _ led i f t subj u rfl ht2 hs2 hu2 hk]
  refine ⟨rfl, rfl, rfl, ?_, rfl, ?_, rfl, rfl, ?_⟩
  · by_cases hc : (i == t.correctAnswer) <;>
      simp [hc, mapGet_assocSet_self]
  · by_cases hc : (i == t.correctAnswer) <;> simp [hc]
  · intro h3
    have hm : ∀ cc : Config, cc.subjectTotalQuestions =
        assocSet c.subjectTotalQuestions subj
          (mapGet c.subjectTotalQuestions subj + 1) →
        mapGet cc.subjectTotalQuestions subj = 4 := by
      intro cc hcc
      rw [hcc, mapGet_assocSet_self, h3]
    constructor
    · by_cases hc : (i == t.correctAnswer) <;>
        simp [hc, mapGet_assocSet_self, h3]
    · intro led2 today
      apply handleNext_no_bonus_of_total_ne3
      · exact hs
      · by_cases hc : (i == t.correctAnswer) <;>
          simp [hc, mapGet_assocSet_self, h3]

/-! ### Concrete sample states and claim witnesses -/

/-- Fresh sample session state sitting on the first task of subject `A`. -/
def sampleConfigTask : Config :=
  { selectedSubjects := []
    lessons := [{ subject := "A", topic := "", homework := "", date := "" }]
    username := some "juris"
    currentSubjectIndex := 0
    currentTaskIndex := 0
    selectedAnswer := none
    currentPage := Page.task
    reminders := [("A", sampleReminder3)]
    isLoading := false
    error := none
    totalCoinsEarned := 0
    correctAnswers := 0
    totalQuestions := 0
    subjectCorrectAnswers := []
    subjectTotalQuestions := []
    awardedQuestions := []
    awardedBonuses := []
    canClaimCompletionBonus := false
    hasClaimedBonus := false }

/-- The sample task state on the second task. -/
def sampleConfigTaskSecond : Config :=
  { sampleConfigTask with currentTaskIndex := 1 }

/-- The sample state on the first theory page. -/
def sampleConfigTheory1 : Config :=
  { sampleConfigTask with currentPage := Page.theory1 }

/-- The sample state on the completion page. -/
def sampleConfigCompletion : Config :=
  { sampleConfigTask with currentPage := Page.completion }

/-- The sample state right after mounting, while the fetch is in flight. -/
def sampleStartConfig : Config :=
  startSession []
    [{ subject := "A", topic := "", homework := "", date := "" }]
    (some "juris")

/-- The sample state after a failed fetch. -/
def sampleErrorConfig : Config :=
  { sampleStartConfig with isLoading := false, error := some "boom" }

/-- Witness for claim C2: submitting the correct option index 1 on the
sample task records it, flips to the explanation page, bumps all counters
and issues a 10-coin award for the question key. -/
theorem c2_witness :
    (submitAnswer sampleConfigTask emptyLedger 1 false).1.selectedAnswer =
        some 1 ∧
      (submitAnswer sampleConfigTask emptyLedger 1 false).1.currentPage =
        Page.explanation ∧
      (submitAnswer sampleConfigTask emptyLedger 1 false).1.totalQuestions =
        sampleConfigTask.totalQuestions + 1 ∧
      mapGet (submitAnswer sampleConfigTask emptyLedger 1
          false).1.subjectTotalQuestions "A" =
        mapGet sampleConfigTask.subjectTotalQuestions "A" + 1 ∧
      (submitAnswer sampleConfigTask emptyLedger 1 false).1.totalCoinsEarned =
        sampleConfigTask.totalCoinsEarned + 10 ∧
      (submitAnswer sampleConfigTask emptyLedger 1 false).1.correctAnswers =
        sampleConfigTask.correctAnswers + 1 ∧
      mapGet (submitAnswer sampleConfigTask emptyLedger 1
          false).1.subjectCorrectAnswers "A" =
        mapGet sampleConfigTask.subjectCorrectAnswers "A" + 1 ∧
      Effect.addCoinsCall "juris" 10
          (Attr.question
            (questionKey "A" sampleConfigTask.currentTaskIndex
              sampleTask.question)) ∈
        (submitAnswer sampleConfigTask emptyLedger 1 false).2.2 := by
  have h := (c2_submission_behavior sampleConfigTask emptyLedger 1 false).2.2
    sampleTask "A" "juris" rfl rfl (by decide) (by decide) (by decide)
    (by decide) (by decide)
  have hc := h.2.2.2.2.1 (by decide)
  exact ⟨h.1, h.2.1, h.2.2.1, h.2.2.2.1, hc.1, hc.2.1, hc.2.2.1, hc.2.2.2⟩

/-- Witness for claim C3: from the sample `theory1` state the next event
goes exactly to `theory2`; from the sample last explanation it goes to
`completion`. -/
theorem c3_witness :
    handleNext sampleConfigTheory1 emptyLedger 0 =
        ({ sampleConfigTheory1 with currentPage := Page.theory2 },
          emptyLedger, []) ∧
      (handleNext sampleConfigLastExplanation emptyLedger 0).1.currentPage =
        Page.completion := by
  refine ⟨?_, ?_⟩
  · exact (c3_advance_follows_table sampleConfigTheory1 emptyLedger 0).1 rfl
  · exact (c3_advance_follows_table sampleConfigLastExplanation emptyLedger
      0).2.2.2.2 rfl (by decide) (by decide)

/-- Witness for claim C7: from the sample second task the back event goes to
the previous task's explanation with the answer cleared; from `completion`
the state is unchanged. -/
theorem c7_witness :
    handleBack sampleConfigTaskSecond =
        { sampleConfigTaskSecond with
            currentTaskIndex := sampleConfigTaskSecond.currentTaskIndex - 1,
            selectedAnswer := none, currentPage := Page.explanation } ∧
      handleBack sampleConfigCompletion = sampleConfigCompletion := by
  refine ⟨?_, ?_⟩
  · exact (c7_retreat_behavior sampleConfigTaskSecond).1 rfl (by decide)
  · exact (c7_retreat_behavior sampleConfigCompletion).2.2.2.2.2.2.2.2 rfl

/-- Witness for claim C8: a fetch failing with message `boom` on the fresh
sample session sets the error message and stops loading without advancing
the accumulators, and in the resulting error state the next event is a
no-op while closing only emits the close signal. -/
theorem c8_witness :
    (loadReminders sampleStartConfig (Except.error "boom")).error =
        some (if "boom" = "" then defaultFetchErrorMessage else "boom") ∧
      (loadReminders sampleStartConfig (Except.error "boom")).isLoading =
        false ∧
      (loadReminders sampleStartConfig (Except.error "boom")).totalCoinsEarned =
        sampleStartConfig.totalCoinsEarned ∧
      step 0 (sampleErrorConfig, emptyLedger) Event.next =
        ((sampleErrorConfig, emptyLedger), []) ∧
      step 0 (sampleErrorConfig, emptyLedger) Event.close =
        ((sampleErrorConfig, emptyLedger), [Effect.closed]) := by
  have h1 := c8_fetch_failure_terminal.1 sampleStartConfig "boom" (by decide)
  refine ⟨h1.1, h1.2.1, h1.2.2.2.2.2.2.2.1, ?_, ?_⟩
  · exact c8_fetch_failure_terminal.2.1 0 (sampleErrorConfig, emptyLedger)
      Event.next (by decide) (by decide) (fun h => Event.noConfusion h)
  · exact c8_fetch_failure_terminal.2.2 0 (sampleErrorConfig, emptyLedger)

/-- Witness for claim C9: a failed ledger call for a correct answer on the
fresh sample state still leaves the optimistic +10 on the session counter,
records the question key, keeps the ledger unchanged and only logs. -/
theorem c9_witness :
    (awardCoins sampleConfigTask emptyLedger true "A-0-q1"
          true).1.totalCoinsEarned =
        sampleConfigTask.totalCoinsEarned + (if true then 10 else 5) ∧
      (awardCoins sampleConfigTask emptyLedger true "A-0-q1"
          true).1.awardedQuestions =
        setAdd sampleConfigTask.awardedQuestions "A-0-q1" ∧
      (awardCoins sampleConfigTask emptyLedger true "A-0-q1" true).2.1 =
        emptyLedger ∧
      (awardCoins sampleConfigTask emptyLedger true "A-0-q1" true).2.2 =
        [Effect.addCoinsCall "juris" (if true then 10 else 5)
            (Attr.question "A-0-q1"), Effect.logError] :=
  c9_award_failure_optimistic sampleConfigTask emptyLedger true "A-0-q1"
    "juris" (by decide) (by decide)

/-- Witness for claim C10: after backing out of the sample last explanation
(3/3 answered) and re-submitting the correct answer, the total counters grow
again (the per-subject total becomes 4), no coins are issued (only a logged
warning), and the subsequent advance grants no perfect-score bonus. -/
theorem c10_witness :
    (handleBack sampleConfigLastExplanation).currentPage = Page.task ∧
      (handleBack sampleConfigLastExplanation).selectedAnswer = none ∧
      (submitAnswer (handleBack sampleConfigLastExplanation) emptyLedger 1
          false).1.totalQuestions =
        sampleConfigLastExplanation.totalQuestions + 1 ∧
      (submitAnswer (handleBack sampleConfigLastExplanation) emptyLedger 1
          false).2.2 = [Effect.logWarn] ∧
      mapGet (submitAnswer (handleBack sampleConfigLastExplanation)
          emptyLedger 1 false).1.subjectTotalQuestions "A" = 4 ∧
      countBonusAwards
        (handleNext (submitAnswer (handleBack sampleConfigLastExplanation)
            emptyLedger 1 false).1 emptyLedger 0).2.2 "A" = 0 := by
  have h := c10_reanswer_after_back sampleConfigLastExplanation emptyLedger 1
    false sampleTask "A" "juris" rfl (by decide) (by decide) (by decide)
    (by decide) (by decide)
  have h9 := h.2.2.2.2.2.2.2.2 (by decide)
  exact ⟨h.1, h.2.1, h.2.2.1, h.2.2.2.2.2.2.2.1, h9.1, h9.2 emptyLedger 0⟩

end Revisery
